import Mathlib

/-!
Verification development for the DashRAG client-side ingestion/query protocol.

The definitions below are a shallow embedding of the TypeScript source:
* `src/front-end/types/index.ts` — the data model (`DocumentStatus`,
  `ProcessingPhase`, `Document`, `DashRAGMessage`, `StatusMessage`);
* `src/front-end/utils/dashrag-api.ts`, `pollDocumentStatus` — the client
  status poller (fetch loop, simulated progress, terminal pin to 100);
* `pages/api/chat.ts` (`handler`) — the query dispatch bridge that submits a
  query and polls the message history for the adjacent assistant reply;
* the SSE `onmessage` handler of `handleFileUpload` in the chat page — the
  progress-stream client.

Network effects are modelled by passing the per-attempt fetch results as a
function of the attempt index; the `onUpdate` callback is modelled by
collecting the emitted `(status, progress)` pairs in a list.
-/

namespace DashRAG

/-- The document lifecycle statuses, from `types/index.ts`. -/
inductive DocumentStatus where
  | pending
  | downloading
  | inserting
  | ready
  | error
deriving DecidableEq, Repr

/-- The ingestion sub-phases while a document is `inserting`, from `types/index.ts`. -/
inductive ProcessingPhase where
  | pdf_extraction
  | text_chunking
  | entity_extraction
  | graph_clustering
  | community_reports
  | finalizing
deriving DecidableEq, Repr

/-- The document source kinds, from the `source_type` field of `Document`. -/
inductive SourceType where
  | upload
  | arxiv
deriving DecidableEq, Repr

/-- The `Document` record of `types/index.ts` (optional fields as `Option`). -/
structure Document where
  id : String
  session_id : String := ""
  title : String := ""
  source_type : SourceType := .upload
  status : DocumentStatus
  processing_phase : Option ProcessingPhase := none
  progress_percent : Option Nat := none
  arxiv_id : Option String := none
  published_at : Option String := none
  pages : Option Nat := none
  created_at : String := ""
deriving DecidableEq, Repr

/-- The `DashRAGMessage` record of `types/index.ts`; `content` holds the text
of the `content.text` field.  The `role` is kept as a raw string because the
bridge compares it with the string literal `"assistant"`. -/
structure DashRAGMessage where
  id : String
  session_id : String := ""
  role : String
  content : String := ""
  created_at : String := ""
deriving DecidableEq, Repr

/-- Whether a status is terminal; the poller's check
`doc.status === "ready" or doc.status === "error"`. -/
def DocumentStatus.isTerminal : DocumentStatus → Bool
  | .ready => true
  | .error => true
  | _ => false

/-! ### Status poller (`pollDocumentStatus` in `utils/dashrag-api.ts`) -/

/-- The default `maxAttempts` of `pollDocumentStatus`. -/
def pollMaxAttemptsDefault : Nat := 60

/-- The fixed inter-attempt delay of `pollDocumentStatus`, in milliseconds
(`setTimeout(resolve, 2000)`). -/
def pollIntervalMs : Nat := 2000

/-- The simulated progress computed by `pollDocumentStatus` for an observed
status at a given value of the `attempts` counter:
`pending → 10`, `downloading → 30`, `inserting → 50 + attempts * 2`,
`ready → 100`, `error → 0`. -/
def simulatedProgress (status : DocumentStatus) (attempts : Nat) : Nat :=
  match status with
  | .pending => 10
  | .downloading => 30
  | .inserting => 50 + attempts * 2
  | .ready => 100
  | .error => 0

/-- The possible outcomes of the polling loop: returning the terminal
document, the thrown `"Document not found"`, or the thrown
`"Document processing timeout"`. -/
inductive PollOutcome where
  | completed (doc : Document)
  | documentNotFound
  | pollTimeout
deriving DecidableEq, Repr

/-- One run of the polling loop: the `(status, progress)` pairs passed to
`onStatusUpdate` in order, the number of `getDocuments` fetches performed,
and the outcome. -/
structure PollTrace where
  updates : List (DocumentStatus × Nat)
  fetches : Nat
  outcome : PollOutcome
deriving DecidableEq, Repr

/-- The `while (attempts < maxAttempts)` loop of `pollDocumentStatus`.
`fetch t` is the document list returned by `this.getDocuments(sessionId)` on
the iteration where the `attempts` counter equals `t`; `remaining` is
`maxAttempts - attempts`, so the loop exits (timeout) when it reaches `0`.
Each iteration fetches once, locates the target with
`documents.find(d => d.id === documentId)`, reports
`(doc.status, Math.min(progress, 90))`, and on a terminal status reports
`(doc.status, 100)` and returns the document. -/
def pollLoop (fetch : Nat → List Document) (documentId : String) :
    Nat → Nat → PollTrace
  | _, 0 => ⟨[], 0, .pollTimeout⟩
  | attempts, remaining + 1 =>
    let documents := fetch attempts
    match documents.find? (fun d => d.id == documentId) with
    | none => ⟨[], 1, .documentNotFound⟩
    | some doc =>
      let progress := simulatedProgress doc.status attempts
      let upd := (doc.status, min progress 90)
      if doc.status.isTerminal then
        ⟨[upd, (doc.status, 100)], 1, .completed doc⟩
      else
        let rest := pollLoop fetch documentId (attempts + 1) remaining
        ⟨upd :: rest.updates, rest.fetches + 1, rest.outcome⟩

/-- `pollDocumentStatus(sessionId, documentId, onStatusUpdate, maxAttempts)`:
runs the loop starting from `attempts = 0`. -/
def pollDocumentStatus (fetch : Nat → List Document) (documentId : String)
    (maxAttempts : Nat := pollMaxAttemptsDefault) : PollTrace :=
  pollLoop fetch documentId 0 maxAttempts

/-! ### Query dispatch bridge (`handler` in `pages/api/chat.ts`) -/

/-- The bridge's attempt ceiling (`const maxAttempts = 60`). -/
def queryMaxAttempts : Nat := 60

/-- The bridge's inter-attempt delay (`const pollInterval = 1000`). -/
def queryPollIntervalMs : Nat := 1000

/-- The resolution check of one bridge attempt:
`messages.findIndex(m => m.id === messageId)` followed by the bounds check
`userMsgIndex >= 0 and userMsgIndex < messages.length - 1` and the role check
`messages[userMsgIndex + 1].role === "assistant"`.  Returns the adjacent
assistant message when all checks pass. -/
def findAdjacentAssistant (messageId : String) :
    List DashRAGMessage → Option DashRAGMessage
  | [] => none
  | m :: rest =>
    if m.id == messageId then
      match rest with
      | [] => none
      | next :: _ => if next.role == "assistant" then some next else none
    else findAdjacentAssistant messageId rest

/-- The bridge's terminal outcomes: the 200 response carrying the assistant
message, or the 504 `"Query timed out after 60 seconds"`. -/
inductive BridgeOutcome where
  | resolved (msg : DashRAGMessage)
  | queryTimeout
deriving DecidableEq, Repr

/-- The `for (attempt = 0; attempt < maxAttempts; attempt++)` polling loop of
the chat handler.  `fetch t` is the result of the `GET /messages` call on
attempt `t`: `none` models a failed fetch (`!getResponse.ok`), which the code
skips with `continue`; `remaining` is `maxAttempts - attempt`. -/
def bridgeLoop (fetch : Nat → Option (List DashRAGMessage))
    (messageId : String) : Nat → Nat → BridgeOutcome
  | _, 0 => .queryTimeout
  | attempt, remaining + 1 =>
    match fetch attempt with
    | none => bridgeLoop fetch messageId (attempt + 1) remaining
    | some messages =>
      match findAdjacentAssistant messageId messages with
      | some assistantMsg => .resolved assistantMsg
      | none => bridgeLoop fetch messageId (attempt + 1) remaining

/-- The whole post-submission phase of the chat handler: poll the message
history up to `queryMaxAttempts` times for the assistant reply adjacent to
the user message with the returned `message_id`. -/
def runQueryBridge (fetch : Nat → Option (List DashRAGMessage))
    (messageId : String) : BridgeOutcome :=
  bridgeLoop fetch messageId 0 queryMaxAttempts

/-! ### Progress-stream client (SSE `onmessage` of `handleFileUpload`) -/

/-- The status values of the UI `StatusMessage` record in `types/index.ts`:
`"uploading" | "processing" | "ready" | "error"`. -/
inductive UploadStatus where
  | uploading
  | processing
  | ready
  | error
deriving DecidableEq, Repr

/-- The payload of a `updateLastStatusMessage(status, message, progress)`
call (the `StatusMessage` record of `types/index.ts`, minus the constant
`type: "status"` tag). -/
structure StatusMessage where
  status : UploadStatus
  message : String
  progress : Option Nat
deriving DecidableEq, Repr

/-- A parsed SSE `event.data` JSON object, with the fields the handler
reads; absent fields are `none`. -/
structure SSEData where
  event : Option String := none
  status : Option String := none
  message : Option String := none
  processing_phase : Option ProcessingPhase := none
  progress_percent : Option Nat := none
deriving DecidableEq, Repr

/-- JavaScript `x || d` for an optional number: `undefined` and `0` are both
falsy, so they yield the default. -/
def jsOrNat (x : Option Nat) (d : Nat) : Nat :=
  match x with
  | none => d
  | some 0 => d
  | some v => v

/-- JavaScript `s || d` for an optional string: `undefined` and `""` are
falsy, so they yield the default. -/
def jsOrString (s : Option String) (d : String) : String :=
  match s with
  | none => d
  | some v => if v = "" then d else v

/-- `getPhaseDescription` from the chat page: user-friendly text for a
processing phase, `"Processing..."` when the phase is absent. -/
def getPhaseDescription (phase : Option ProcessingPhase) : String :=
  match phase with
  | none => "Processing..."
  | some .pdf_extraction => "📄 Extracting text from PDF"
  | some .text_chunking => "📝 Creating text chunks"
  | some .entity_extraction => "🔍 Extracting entities and relationships"
  | some .graph_clustering => "🕸️ Building knowledge graph"
  | some .community_reports => "📊 Generating community reports"
  | some .finalizing => "✨ Finalizing document"

/-- The effects of handling one SSE message: the `updateLastStatusMessage`
payload (if any), whether `eventSource.close()` runs, whether
`loadDocuments(sessionId)` runs, and whether `setUploadingFile(false)` runs. -/
structure StreamAction where
  update : Option StatusMessage
  closesChannel : Bool
  refetchesDocuments : Bool
  clearsUploading : Bool
deriving DecidableEq, Repr

/-- The `eventSource.onmessage` handler of `handleFileUpload` in the chat
page, for an upload named `fileName`:
* `data.event === "complete"` — update to ready/100 or error/0 according to
  `data.status`, close the channel, `loadDocuments`, clear the upload flag;
* `data.event === "error"` — update to error/0 with `data.message` (or the
  fallback text), close the channel, clear the upload flag, but do not
  re-fetch the document list;
* otherwise — a regular progress update with `getPhaseDescription` and
  `data.progress_percent || 10`; channel stays open.
The corresponding handler of `handleAddArxivPaper` differs only in the
message texts. -/
def onStreamMessage (fileName : String) (data : SSEData) : StreamAction :=
  if data.event == some "complete" then
    { update :=
        if data.status == some "ready" then
          some ⟨.ready, "✅ " ++ fileName ++ " is ready!", some 100⟩
        else if data.status == some "error" then
          some ⟨.error, "❌ Failed to process " ++ fileName, some 0⟩
        else none
      closesChannel := true
      refetchesDocuments := true
      clearsUploading := true }
  else if data.event == some "error" then
    { update := some ⟨.error, jsOrString data.message "Processing failed", some 0⟩
      closesChannel := true
      refetchesDocuments := false
      clearsUploading := true }
  else
    { update := some ⟨.processing, getPhaseDescription data.processing_phase,
        some (jsOrNat data.progress_percent 10)⟩
      closesChannel := false
      refetchesDocuments := false
      clearsUploading := false }

/-! ### Document status transitions (spec-modelled) -/

/-- The single error kind of the spec's `transition` operation. -/
inductive TransitionError where
  | invalidTransition
deriving DecidableEq, Repr

/-- Modelled from the spec: the position of a status along the monotonic
path `pending → downloading → inserting → (ready | error)`; the source only
declares the `DocumentStatus` type and implements no transition function. -/
def statusRank : DocumentStatus → Nat
  | .pending => 0
  | .downloading => 1
  | .inserting => 2
  | .ready => 3
  | .error => 3

/-- Modelled from the spec: the single steps of the monotonic path
`pending → {downloading (arxiv only)} → inserting → {ready | error}`.  The
source only declares the `DocumentStatus` type; this follows §3/§4.1 of the
spec, with `pending → downloading` restricted to arXiv documents and the
`downloading` stop optional. -/
def stepAllowed (source_type : SourceType) :
    DocumentStatus → DocumentStatus → Bool
  | .pending, .downloading => source_type == .arxiv
  | .pending, .inserting => true
  | .downloading, .inserting => true
  | .inserting, .ready => true
  | .inserting, .error => true
  | _, _ => false

/-- Modelled from the spec: `transition(doc, newStatus)` fails with
`InvalidTransition` if `newStatus` does not follow the monotonic order or
the current status is terminal, and otherwise returns the updated document.
No such function exists in the source; this is §4.1's contract. -/
def transition (doc : Document) (newStatus : DocumentStatus) :
    Except TransitionError Document :=
  if stepAllowed doc.source_type doc.status newStatus then
    .ok { doc with status := newStatus }
  else
    .error .invalidTransition

/-- The outcome of one bridge attempt: the fetched history (if the fetch
succeeded) run through the resolution check. -/
def bridgeAttempt (fetch : Nat → Option (List DashRAGMessage))
    (messageId : String) (t : Nat) : Option DashRAGMessage :=
  Option.bind (fetch t) (findAdjacentAssistant messageId)

/-! ### Concrete fixtures used to instantiate the theorems -/

/-- The user message of the spec's query-dispatch example. -/
def userMsg1 : DashRAGMessage :=
  { id := "m1", role := "user", content := "question" }

/-- The assistant reply of the spec's query-dispatch example. -/
def assistantMsg2 : DashRAGMessage :=
  { id := "m2", role := "assistant", content := "answer" }

/-- The history-fetch sequence of the spec's query-dispatch example: the
first attempt sees the user message without a reply, later attempts see the
adjacent assistant reply. -/
def exampleHistoryFetch : Nat → Option (List DashRAGMessage) :=
  fun t => if t = 0 then some [userMsg1] else some [userMsg1, assistantMsg2]

/-- A history fetch that fails on every attempt. -/
def failingHistoryFetch : Nat → Option (List DashRAGMessage) :=
  fun _ => none

/-- A document still mid-ingestion. -/
def insertingDoc : Document := { id := "doc1", status := .inserting }

/-- The same document once ingestion has finished. -/
def readyDoc : Document := { id := "doc1", status := .ready }

/-- A document list sequence where `doc1` is `inserting` on the first four
fetches and `ready` from the fifth fetch on. -/
def readyAtFifthFetch : Nat → List Document :=
  fun t => if t < 4 then [insertingDoc] else [readyDoc]

/-- A document list sequence where `doc1` never leaves `inserting`. -/
def neverReadyFetch : Nat → List Document :=
  fun _ => [insertingDoc]

/-- A document list sequence where `doc1` is `ready` immediately. -/
def readyNowFetch : Nat → List Document :=
  fun _ => [readyDoc]

/-- A document list sequence where `doc1` disappears after the first fetch
(concurrent deletion). -/
def deletedAfterFirstFetch : Nat → List Document :=
  fun t => if t = 0 then [insertingDoc] else []

/-- The same document once ingestion has failed. -/
def errorDoc : Document := { id := "doc1", status := .error }

/-- A document list sequence where `doc1` errors out on the third fetch. -/
def errorAtThirdFetch : Nat → List Document :=
  fun t => if t < 2 then [insertingDoc] else [errorDoc]

/-- A parsed SSE terminal completion event with status `ready`. -/
def completeReadyData : SSEData := { event := some "complete", status := some "ready" }

/-- A parsed SSE stream-level error event. -/
def errorEventData : SSEData := { event := some "error", message := some "boom" }

/-- A parsed SSE progress event whose authoritative progress is exactly 0. -/
def zeroProgressData : SSEData :=
  { processing_phase := some .pdf_extraction, progress_percent := some 0 }

/-! ### Helper lemmas: the resolution check -/

theorem findAdjacentAssistant_sound {messageId : String}
    {msgs : List DashRAGMessage} {a : DashRAGMessage}
    (h : findAdjacentAssistant messageId msgs = some a) :
    ∃ i u, msgs[i]? = some u ∧ u.id = messageId ∧
      msgs[i + 1]? = some a ∧ a.role = "assistant" := by
  induction msgs with
  | nil => simp [findAdjacentAssistant] at h
  | cons m rest ih =>
    by_cases hm : (m.id == messageId) = true
    · cases rest with
      | nil => simp [findAdjacentAssistant, hm] at h
      | cons next tail =>
        by_cases hr : (next.role == "assistant") = true
        · have hna : next = a := by
            simpa [findAdjacentAssistant, hm, hr] using h
          subst hna
          exact ⟨0, m, by simp, beq_iff_eq.mp hm, by simp, beq_iff_eq.mp hr⟩
        · simp [findAdjacentAssistant, hm, hr] at h
    · have h' : findAdjacentAssistant messageId rest = some a := by
        simpa [findAdjacentAssistant, hm] using h
      obtain ⟨i, u, h1, h2, h3, h4⟩ := ih h'
      exact ⟨i + 1, u, by simpa using h1, h2, by simpa using h3, h4⟩

theorem findAdjacentAssistant_complete {messageId : String}
    {msgs : List DashRAGMessage}
    (hu : msgs.Pairwise (fun x y => x.id ≠ y.id))
    {i : Nat} {u a : DashRAGMessage}
    (h1 : msgs[i]? = some u) (h2 : u.id = messageId)
    (h3 : msgs[i + 1]? = some a) (h4 : a.role = "assistant") :
    findAdjacentAssistant messageId msgs = some a := by
  induction msgs generalizing i with
  | nil => simp at h1
  | cons m rest ih =>
    cases i with
    | zero =>
      have hum : m = u := by simpa using h1
      subst hum
      cases rest with
      | nil => simp at h3
      | cons next tail =>
        have hna : next = a := by simpa using h3
        subst hna
        simp [findAdjacentAssistant, h2, h4]
    | succ j =>
      have h1' : rest[j]? = some u := by simpa using h1
      have h3' : rest[j + 1]? = some a := by simpa using h3
      have hmem : u ∈ rest := List.getElem?_mem h1'
      have hm : ¬ (m.id == messageId) = true := by
        intro hbeq
        exact (List.pairwise_cons.mp hu).1 u hmem
          (by rw [beq_iff_eq.mp hbeq, h2])
      have hrec := ih (List.pairwise_cons.mp hu).2 h1' h3'
      simpa [findAdjacentAssistant, hm] using hrec

/-! ### Helper lemmas: the bridge polling loop -/

theorem bridgeLoop_succ (fetch : Nat → Option (List DashRAGMessage))
    (messageId : String) (attempt remaining : Nat) :
    bridgeLoop fetch messageId attempt (remaining + 1) =
      match bridgeAttempt fetch messageId attempt with
      | some m => .resolved m
      | none => bridgeLoop fetch messageId (attempt + 1) remaining := by
  cases hf : fetch attempt with
  | none => simp [bridgeLoop, bridgeAttempt, hf]
  | some msgs =>
    cases hr : findAdjacentAssistant messageId msgs with
    | none => simp [bridgeLoop, bridgeAttempt, hf, hr]
    | some m => simp [bridgeLoop, bridgeAttempt, hf, hr]

theorem bridgeLoop_timeout {fetch : Nat → Option (List DashRAGMessage)}
    {messageId : String} {a r : Nat}
    (h : ∀ t, a ≤ t → t < a + r → bridgeAttempt fetch messageId t = none) :
    bridgeLoop fetch messageId a r = .queryTimeout := by
  induction r generalizing a with
  | zero => rfl
  | succ r ih =>
    rw [bridgeLoop_succ, h a (Nat.le_refl a) (by omega)]
    exact ih fun t h1 h2 => h t (by omega) (by omega)

theorem bridgeLoop_resolved_exists {fetch : Nat → Option (List DashRAGMessage)}
    {messageId : String} {a r : Nat}
    (h : ∃ t, a ≤ t ∧ t < a + r ∧ bridgeAttempt fetch messageId t ≠ none) :
    ∃ m, bridgeLoop fetch messageId a r = .resolved m := by
  induction r generalizing a with
  | zero =>
    obtain ⟨t, h1, h2, _⟩ := h
    omega
  | succ r ih =>
    rw [bridgeLoop_succ]
    cases ha : bridgeAttempt fetch messageId a with
    | some m => exact ⟨m, rfl⟩
    | none =>
      obtain ⟨t, h1, h2, h3⟩ := h
      have hta : t ≠ a := fun he => h3 (he ▸ ha)
      exact ih ⟨t, by omega, by omega, h3⟩

theorem bridgeLoop_resolved_inv {fetch : Nat → Option (List DashRAGMessage)}
    {messageId : String} {a r : Nat} {m : DashRAGMessage}
    (h : bridgeLoop fetch messageId a r = .resolved m) :
    ∃ t, a ≤ t ∧ t < a + r ∧ bridgeAttempt fetch messageId t = some m := by
  induction r generalizing a with
  | zero => simp [bridgeLoop] at h
  | succ r ih =>
    rw [bridgeLoop_succ] at h
    cases ha : bridgeAttempt fetch messageId a with
    | some m' =>
      rw [ha] at h
      have hm : m' = m := by simpa using h
      exact ⟨a, Nat.le_refl a, by omega, hm ▸ ha⟩
    | none =>
      rw [ha] at h
      obtain ⟨t, h1, h2, h3⟩ := ih h
      exact ⟨t, by omega, by omega, h3⟩

theorem bridgeLoop_congr {fetch fetch' : Nat → Option (List DashRAGMessage)}
    {messageId : String} {a r : Nat}
    (h : ∀ t, a ≤ t → t < a + r → fetch t = fetch' t) :
    bridgeLoop fetch messageId a r = bridgeLoop fetch' messageId a r := by
  induction r generalizing a with
  | zero => rfl
  | succ r ih =>
    rw [bridgeLoop_succ, bridgeLoop_succ]
    have he : bridgeAttempt fetch messageId a = bridgeAttempt fetch' messageId a := by
      unfold bridgeAttempt
      rw [h a (Nat.le_refl a) (by omega)]
    rw [he]
    cases bridgeAttempt fetch' messageId a with
    | some m => rfl
    | none => exact ih fun t h1 h2 => h t (by omega) (by omega)

/-! ### Helper lemmas: the status polling loop -/

theorem pollLoop_succ (fetch : Nat → List Document) (documentId : String)
    (attempts remaining : Nat) :
    pollLoop fetch documentId attempts (remaining + 1) =
      match (fetch attempts).find? (fun d => d.id == documentId) with
      | none => ⟨[], 1, .documentNotFound⟩
      | some doc =>
        let upd := (doc.status, min (simulatedProgress doc.status attempts) 90)
        if doc.status.isTerminal then
          ⟨[upd, (doc.status, 100)], 1, .completed doc⟩
        else
          let rest := pollLoop fetch documentId (attempts + 1) remaining
          ⟨upd :: rest.updates, rest.fetches + 1, rest.outcome⟩ := by
  cases hf : (fetch attempts).find? (fun d => d.id == documentId) with
  | none => simp [pollLoop, hf]
  | some doc => simp [pollLoop, hf]

theorem pollLoop_terminal {fetch : Nat → List Document} {documentId : String}
    {k : Nat} {doc : Document} :
    ∀ {a r : Nat}, k < r →
    (∀ j, j < k → ∃ d, (fetch (a + j)).find? (fun d => d.id == documentId) = some d ∧
      d.status.isTerminal = false) →
    (fetch (a + k)).find? (fun d => d.id == documentId) = some doc →
    doc.status.isTerminal = true →
    ∃ pre, (∀ u ∈ pre, u.2 ≤ 90) ∧
      pollLoop fetch documentId a r =
        ⟨pre ++ [(doc.status, min (simulatedProgress doc.status (a + k)) 90),
            (doc.status, 100)],
          k + 1, .completed doc⟩ := by
  induction k with
  | zero =>
    intro a r hk hpre hterm hdone
    cases r with
    | zero => omega
    | succ r =>
      refine ⟨[], by simp, ?_⟩
      rw [pollLoop_succ]
      rw [show a + 0 = a from rfl] at hterm
      rw [hterm]
      simp [hdone]
  | succ k ih =>
    intro a r hk hpre hterm hdone
    cases r with
    | zero => omega
    | succ r =>
      obtain ⟨d0, hf0, hnt0⟩ := hpre 0 (by omega)
      rw [show a + 0 = a from rfl] at hf0
      have hpre' : ∀ j, j < k →
          ∃ d, (fetch (a + 1 + j)).find? (fun d => d.id == documentId) = some d ∧
            d.status.isTerminal = false := by
        intro j hj
        have := hpre (j + 1) (by omega)
        rwa [show a + (j + 1) = a + 1 + j by omega] at this
      have hterm' : (fetch (a + 1 + k)).find? (fun d => d.id == documentId) = some doc := by
        rwa [show a + (k + 1) = a + 1 + k by omega] at hterm
      obtain ⟨pre, hpre90, heq⟩ := ih (a := a + 1) (r := r) (by omega) hpre' hterm' hdone
      refine ⟨(d0.status, min (simulatedProgress d0.status a) 90) :: pre, ?_, ?_⟩
      · intro u hu
        rcases List.mem_cons.mp hu with h | h
        · subst h; exact Nat.min_le_right _ _
        · exact hpre90 u h
      · rw [pollLoop_succ, hf0]
        simp only [hnt0, heq]
        rw [show a + 1 + k = a + (k + 1) by omega]
        simp

theorem pollLoop_nonterminal {fetch : Nat → List Document} {documentId : String} :
    ∀ {a r : Nat},
    (∀ j, j < r → ∃ d, (fetch (a + j)).find? (fun d => d.id == documentId) = some d ∧
      d.status.isTerminal = false) →
    ∃ updates, (∀ u ∈ updates, u.2 ≤ 90) ∧
      pollLoop fetch documentId a r = ⟨updates, r, .pollTimeout⟩ := by
  intro a r
  induction r generalizing a with
  | zero => exact fun _ => ⟨[], by simp, rfl⟩
  | succ r ih =>
    intro h
    obtain ⟨d0, hf0, hnt0⟩ := h 0 (by omega)
    rw [show a + 0 = a from rfl] at hf0
    have h' : ∀ j, j < r →
        ∃ d, (fetch (a + 1 + j)).find? (fun d => d.id == documentId) = some d ∧
          d.status.isTerminal = false := by
      intro j hj
      have := h (j + 1) (by omega)
      rwa [show a + (j + 1) = a + 1 + j by omega] at this
    obtain ⟨updates, h90, heq⟩ := ih h'
    refine ⟨(d0.status, min (simulatedProgress d0.status a) 90) :: updates, ?_, ?_⟩
    · intro u hu
      rcases List.mem_cons.mp hu with h | h
      · subst h; exact Nat.min_le_right _ _
      · exact h90 u h
    · rw [pollLoop_succ, hf0]
      simp only [hnt0, heq]
      simp

theorem pollLoop_notFound {fetch : Nat → List Document} {documentId : String}
    {k : Nat} :
    ∀ {a r : Nat}, k < r →
    (∀ j, j < k → ∃ d, (fetch (a + j)).find? (fun d => d.id == documentId) = some d ∧
      d.status.isTerminal = false) →
    (fetch (a + k)).find? (fun d => d.id == documentId) = none →
    ∃ updates, (∀ u ∈ updates, u.2 ≤ 90) ∧
      pollLoop fetch documentId a r = ⟨updates, k + 1, .documentNotFound⟩ := by
  induction k with
  | zero =>
    intro a r hk hpre hnone
    cases r with
    | zero => omega
    | succ r =>
      refine ⟨[], by simp, ?_⟩
      rw [pollLoop_succ]
      rw [show a + 0 = a from rfl] at hnone
      rw [hnone]
  | succ k ih =>
    intro a r hk hpre hnone
    cases r with
    | zero => omega
    | succ r =>
      obtain ⟨d0, hf0, hnt0⟩ := hpre 0 (by omega)
      rw [show a + 0 = a from rfl] at hf0
      have hpre' : ∀ j, j < k →
          ∃ d, (fetch (a + 1 + j)).find? (fun d => d.id == documentId) = some d ∧
            d.status.isTerminal = false := by
        intro j hj
        have := hpre (j + 1) (by omega)
        rwa [show a + (j + 1) = a + 1 + j by omega] at this
      have hnone' : (fetch (a + 1 + k)).find? (fun d => d.id == documentId) = none := by
        rwa [show a + (k + 1) = a + 1 + k by omega] at hnone
      obtain ⟨updates, h90, heq⟩ := ih (a := a + 1) (r := r) (by omega) hpre' hnone'
      refine ⟨(d0.status, min (simulatedProgress d0.status a) 90) :: updates, ?_, ?_⟩
      · intro u hu
        rcases List.mem_cons.mp hu with h | h
        · subst h; exact Nat.min_le_right _ _
        · exact h90 u h
      · rw [pollLoop_succ, hf0]
        simp only [hnt0, heq]
        simp

theorem pollLoop_congr {fetch fetch' : Nat → List Document} {documentId : String} :
    ∀ {a r : Nat}, (∀ t, a ≤ t → t < a + r → fetch t = fetch' t) →
    pollLoop fetch documentId a r = pollLoop fetch' documentId a r := by
  intro a r
  induction r generalizing a with
  | zero => exact fun _ => rfl
  | succ r ih =>
    intro h
    rw [pollLoop_succ, pollLoop_succ, h a (Nat.le_refl a) (by omega)]
    cases (fetch' a).find? (fun d => d.id == documentId) with
    | none => rfl
    | some doc =>
      simp only
      rw [ih fun t h1 h2 => h t (by omega) (by omega)]

/-! ### Claim theorems -/

/-- Claim C1: for every query submission that returns a `message_id`, the
query dispatch bridge resolves successfully if and only if, on some poll
attempt within the attempt ceiling, the fetched message history contains the
user message with that id immediately followed by a message with role
`"assistant"`; in that case the bridge returns exactly that
immediately-following assistant message (so a history where the user message
is last, or is followed by a non-assistant message, never resolves).  The
`hUnique` hypothesis is the spec's invariant that a message id identifies a
unique entry of the ordered session history. -/
theorem query_bridge_resolves_iff_adjacent_reply
    (fetch : Nat → Option (List DashRAGMessage)) (messageId : String)
    (hUnique : ∀ t msgs, t < queryMaxAttempts → fetch t = some msgs →
      msgs.Pairwise (fun x y => x.id ≠ y.id)) :
    ((∃ m, runQueryBridge fetch messageId = .resolved m) ↔
      (∃ t, t < queryMaxAttempts ∧ ∃ msgs, fetch t = some msgs ∧
        ∃ i u a, msgs[i]? = some u ∧ u.id = messageId ∧
          msgs[i + 1]? = some a ∧ a.role = "assistant")) ∧
    (∀ m, runQueryBridge fetch messageId = .resolved m →
      ∃ t, t < queryMaxAttempts ∧ ∃ msgs, fetch t = some msgs ∧
        ∃ i u, msgs[i]? = some u ∧ u.id = messageId ∧
          msgs[i + 1]? = some m ∧ m.role = "assistant") := by
  have resolvedInv : ∀ m, runQueryBridge fetch messageId = .resolved m →
      ∃ t, t < queryMaxAttempts ∧ ∃ msgs, fetch t = some msgs ∧
        findAdjacentAssistant messageId msgs = some m := by
    intro m hm
    obtain ⟨t, _, ht, hatt⟩ := bridgeLoop_resolved_inv hm
    cases hf : fetch t with
    | none => rw [bridgeAttempt, hf] at hatt; simp at hatt
    | some msgs =>
      rw [bridgeAttempt, hf] at hatt
      exact ⟨t, by omega, msgs, hf, by simpa using hatt⟩
  constructor
  · constructor
    · rintro ⟨m, hm⟩
      obtain ⟨t, ht, msgs, hf, hfa⟩ := resolvedInv m hm
      obtain ⟨i, u, h1, h2, h3, h4⟩ := findAdjacentAssistant_sound hfa
      exact ⟨t, ht, msgs, hf, i, u, m, h1, h2, h3, h4⟩
    · rintro ⟨t, ht, msgs, hf, i, u, a, h1, h2, h3, h4⟩
      have hfa := findAdjacentAssistant_complete (hUnique t msgs ht hf) h1 h2 h3 h4
      apply bridgeLoop_resolved_exists
      exact ⟨t, Nat.zero_le t, by omega, by rw [bridgeAttempt, hf]; simp [hfa]⟩
  · intro m hm
    obtain ⟨t, ht, msgs, hf, hfa⟩ := resolvedInv m hm
    obtain ⟨i, u, h1, h2, h3, h4⟩ := findAdjacentAssistant_sound hfa
    exact ⟨t, ht, msgs, hf, i, u, h1, h2, h3, h4⟩

/-- Witness for C1: on the spec's example fetch sequence (attempt 1 shows
the user message `m1` alone, attempt 2 also shows the adjacent assistant
reply `m2`), the bridge resolves. -/
theorem query_bridge_resolves_iff_adjacent_reply_witness :
    ∃ m, runQueryBridge exampleHistoryFetch "m1" = BridgeOutcome.resolved m := by
  apply (query_bridge_resolves_iff_adjacent_reply exampleHistoryFetch "m1" ?_).1.mpr
  · exact ⟨1, by decide, [userMsg1, assistantMsg2], rfl, 0, userMsg1, assistantMsg2,
      rfl, rfl, rfl, rfl⟩
  · intro t msgs ht hf
    by_cases h0 : t = 0
    · subst h0
      have hm : msgs = [userMsg1] := by
        have : exampleHistoryFetch 0 = some [userMsg1] := rfl
        rw [this] at hf
        exact (Option.some_inj.mp hf).symm
      subst hm
      decide
    · have hm : msgs = [userMsg1, assistantMsg2] := by
        have : exampleHistoryFetch t = some [userMsg1, assistantMsg2] := by
          simp [exampleHistoryFetch, h0]
        rw [this] at hf
        exact (Option.some_inj.mp hf).symm
      subst hm
      decide

/-- Claim C2: the bridge performs at most 60 poll attempts at 1-second
spacing; an attempt whose history fetch fails is treated as not yet resolved
and retried on the next tick; and when no attempt within the ceiling
resolves — in particular when every fetch fails — the bridge ends in the
`queryTimeout` outcome, its result depending only on the fetches inside the
ceiling (no further polling afterward). -/
theorem query_bridge_bounded_timeout
    (fetch fetch' : Nat → Option (List DashRAGMessage)) (messageId : String)
    (hagree : ∀ t, t < queryMaxAttempts → fetch t = fetch' t)
    (hnone : ∀ t, t < queryMaxAttempts → bridgeAttempt fetch messageId t = none) :
    queryMaxAttempts = 60 ∧ queryPollIntervalMs = 1000 ∧
    (∀ t, fetch t = none →
      bridgeLoop fetch messageId t (queryMaxAttempts - t) =
        bridgeLoop fetch messageId (t + 1) (queryMaxAttempts - (t + 1))) ∧
    runQueryBridge fetch messageId = runQueryBridge fetch' messageId ∧
    runQueryBridge fetch messageId = .queryTimeout := by
  refine ⟨rfl, rfl, ?_, ?_, ?_⟩
  · intro t hf
    rcases Nat.lt_or_ge t queryMaxAttempts with h | h
    · rw [show queryMaxAttempts - t = (queryMaxAttempts - (t + 1)) + 1 by omega,
        bridgeLoop_succ]
      simp [bridgeAttempt, hf]
    · rw [show queryMaxAttempts - t = 0 by omega,
        show queryMaxAttempts - (t + 1) = 0 by omega]
      rfl
  · exact bridgeLoop_congr fun t h1 h2 => hagree t (by omega)
  · exact bridgeLoop_timeout fun t h1 h2 => hnone t (by omega)

/-- Witness for C2: when every history fetch fails, the bridge times out. -/
theorem query_bridge_bounded_timeout_witness :
    runQueryBridge failingHistoryFetch "m1" = BridgeOutcome.queryTimeout :=
  (query_bridge_bounded_timeout failingHistoryFetch failingHistoryFetch "m1"
    (fun _ _ => rfl) (fun _ _ => rfl)).2.2.2.2

/-- Claim C3: when the polled document is present throughout and first shows
a terminal status (`ready` or `error`) on poll attempt `k + 1` with
`k + 1 ≤ maxAttempts`, the poller performs exactly `k + 1` fetches, emits one
final `onUpdate` with progress pinned to 100 and the terminal status, and
returns the document. -/
theorem poller_terminal_returns_document
    (fetch : Nat → List Document) (documentId : String)
    (k maxAttempts : Nat) (doc : Document)
    (hk : k < maxAttempts)
    (hpre : ∀ j, j < k → ∃ d, (fetch j).find? (fun d => d.id == documentId) = some d ∧
      d.status.isTerminal = false)
    (hterm : (fetch k).find? (fun d => d.id == documentId) = some doc)
    (hdone : doc.status.isTerminal = true) :
    (pollDocumentStatus fetch documentId maxAttempts).fetches = k + 1 ∧
    (pollDocumentStatus fetch documentId maxAttempts).outcome = .completed doc ∧
    ∃ pre, (pollDocumentStatus fetch documentId maxAttempts).updates =
      pre ++ [(doc.status, 100)] := by
  have hpre0 : ∀ j, j < k →
      ∃ d, (fetch (0 + j)).find? (fun d => d.id == documentId) = some d ∧
        d.status.isTerminal = false := by
    intro j hj
    rw [Nat.zero_add]
    exact hpre j hj
  have hterm0 : (fetch (0 + k)).find? (fun d => d.id == documentId) = some doc := by
    rw [Nat.zero_add]
    exact hterm
  obtain ⟨pre, h90, heq⟩ := pollLoop_terminal hk hpre0 hterm0 hdone
  unfold pollDocumentStatus
  rw [heq]
  refine ⟨rfl, rfl,
    pre ++ [(doc.status, min (simulatedProgress doc.status (0 + k)) 90)], ?_⟩
  simp

/-- Witness for C3: a document that turns `ready` on the fifth fetch makes
the poller stop after exactly 5 fetches with a final `(ready, 100)` update. -/
theorem poller_terminal_returns_document_witness :
    (pollDocumentStatus readyAtFifthFetch "doc1" 60).fetches = 5 ∧
    (pollDocumentStatus readyAtFifthFetch "doc1" 60).outcome =
      PollOutcome.completed readyDoc ∧
    ∃ pre, (pollDocumentStatus readyAtFifthFetch "doc1" 60).updates =
      pre ++ [(DocumentStatus.ready, 100)] :=
  poller_terminal_returns_document readyAtFifthFetch "doc1" 4 60 readyDoc
    (by omega)
    (fun j hj => ⟨insertingDoc, by
      simp only [readyAtFifthFetch, if_pos hj]
      rfl, rfl⟩)
    (by decide) (by decide)

/-- Claim C4: when the polled document stays non-terminal on every attempt,
the poller performs exactly `maxAttempts` fetches and then fails with the
poll-timeout outcome; its behaviour depends only on the fetches inside the
attempt ceiling (no fetch is issued afterward). -/
theorem poller_timeout_after_max_attempts
    (fetch fetch' : Nat → List Document) (documentId : String) (maxAttempts : Nat)
    (hagree : ∀ t, t < maxAttempts → fetch' t = fetch t)
    (hnt : ∀ j, j < maxAttempts →
      ∃ d, (fetch j).find? (fun d => d.id == documentId) = some d ∧
        d.status.isTerminal = false) :
    (pollDocumentStatus fetch documentId maxAttempts).fetches = maxAttempts ∧
    (pollDocumentStatus fetch documentId maxAttempts).outcome = .pollTimeout ∧
    pollDocumentStatus fetch' documentId maxAttempts =
      pollDocumentStatus fetch documentId maxAttempts := by
  have hnt0 : ∀ j, j < maxAttempts →
      ∃ d, (fetch (0 + j)).find? (fun d => d.id == documentId) = some d ∧
        d.status.isTerminal = false := by
    intro j hj
    rw [Nat.zero_add]
    exact hnt j hj
  obtain ⟨updates, h90, heq⟩ := pollLoop_nonterminal hnt0
  unfold pollDocumentStatus
  rw [heq]
  exact ⟨rfl, rfl, by
    rw [pollLoop_congr fun t h1 h2 => hagree t (by omega), heq]⟩

/-- Witness for C4: a document that never leaves `inserting` exhausts all 60
attempts and times out. -/
theorem poller_timeout_after_max_attempts_witness :
    (pollDocumentStatus neverReadyFetch "doc1" 60).fetches = 60 ∧
    (pollDocumentStatus neverReadyFetch "doc1" 60).outcome = PollOutcome.pollTimeout ∧
    pollDocumentStatus neverReadyFetch "doc1" 60 =
      pollDocumentStatus neverReadyFetch "doc1" 60 :=
  poller_timeout_after_max_attempts neverReadyFetch neverReadyFetch "doc1" 60
    (fun _ _ => rfl)
    (fun _ _ => ⟨insertingDoc, rfl, rfl⟩)

/-- Claim C6: if on some attempt the fetched document list no longer
contains the target id (the document was present and non-terminal on the
earlier attempts), the poller fails with the document-not-found outcome on
that very attempt, performing no further fetches. -/
theorem poller_not_found_stops
    (fetch : Nat → List Document) (documentId : String) (k maxAttempts : Nat)
    (hk : k < maxAttempts)
    (hpre : ∀ j, j < k → ∃ d, (fetch j).find? (fun d => d.id == documentId) = some d ∧
      d.status.isTerminal = false)
    (hnone : (fetch k).find? (fun d => d.id == documentId) = none) :
    (pollDocumentStatus fetch documentId maxAttempts).outcome = .documentNotFound ∧
    (pollDocumentStatus fetch documentId maxAttempts).fetches = k + 1 := by
  have hpre0 : ∀ j, j < k →
      ∃ d, (fetch (0 + j)).find? (fun d => d.id == documentId) = some d ∧
        d.status.isTerminal = false := by
    intro j hj
    rw [Nat.zero_add]
    exact hpre j hj
  have hnone0 : (fetch (0 + k)).find? (fun d => d.id == documentId) = none := by
    rw [Nat.zero_add]
    exact hnone
  obtain ⟨updates, h90, heq⟩ := pollLoop_notFound hk hpre0 hnone0
  unfold pollDocumentStatus
  rw [heq]
  exact ⟨rfl, rfl⟩

/-- Witness for C6: a document deleted after the first fetch makes the
poller stop with the not-found outcome on the second fetch. -/
theorem poller_not_found_stops_witness :
    (pollDocumentStatus deletedAfterFirstFetch "doc1" 60).outcome =
      PollOutcome.documentNotFound ∧
    (pollDocumentStatus deletedAfterFirstFetch "doc1" 60).fetches = 2 :=
  poller_not_found_stops deletedAfterFirstFetch "doc1" 1 60 (by omega)
    (fun j hj => ⟨insertingDoc, by
      have hj0 : j = 0 := by omega
      subst hj0
      rfl, rfl⟩)
    (by decide)

/-- Counterexample to C5 as stated: on the attempt where `ready` is
observed, the poller's per-attempt report for status `ready` is 90 — the
`Math.min(progress, 90)` cap applies to the terminal bands too — not the
claimed band value 100. -/
theorem poller_ready_band_counterexample :
    (DocumentStatus.ready, 90) ∈ (pollDocumentStatus readyNowFetch "doc1" 60).updates ∧
    (90 : Nat) ≠ 100 := by
  constructor
  · have h : pollDocumentStatus readyNowFetch "doc1" 60 =
        ⟨[(DocumentStatus.ready, 90), (DocumentStatus.ready, 100)], 1,
          .completed readyDoc⟩ := by decide
    rw [h]
    simp
  · decide

/-- Claim C5 as amended: the per-attempt progress the poller reports for the
observed status is the band value capped at 90 — `pending → 10`,
`downloading → 30`, `inserting → 50 + 2·attempt` (so capped this is
`50 + min(2·attempt, 40)`), `ready → min(100, 90) = 90`, `error → 0` — and a
terminal status additionally receives a final report of exactly 100, so the
last reported estimate for a terminal status is never a mid-band value. -/
theorem poller_progress_bands_amended
    (fetch : Nat → List Document) (documentId : String) (a r : Nat) (d : Document)
    (hr : 0 < r)
    (hfind : (fetch a).find? (fun x => x.id == documentId) = some d) :
    (pollLoop fetch documentId a r).updates.head? =
      some (d.status, min (simulatedProgress d.status a) 90) ∧
    simulatedProgress .pending a = 10 ∧
    simulatedProgress .downloading a = 30 ∧
    simulatedProgress .inserting a = 50 + a * 2 ∧
    min (50 + a * 2) 90 = 50 + min (a * 2) 40 ∧
    simulatedProgress .ready a = 100 ∧
    simulatedProgress .error a = 0 ∧
    (d.status.isTerminal = true →
      (pollLoop fetch documentId a r).updates =
        [(d.status, min (simulatedProgress d.status a) 90), (d.status, 100)]) := by
  cases r with
  | zero => omega
  | succ r =>
    rw [pollLoop_succ, hfind]
    refine ⟨?_, rfl, rfl, rfl, by omega, rfl, rfl, ?_⟩
    · by_cases ht : d.status.isTerminal <;> simp [ht]
    · intro ht
      simp [ht]

/-- Witness for the amended C5: a document observed as `inserting` on the
first attempt is reported with progress `min(50 + 0·2, 90) = 50`. -/
theorem poller_progress_bands_amended_witness :
    (pollLoop neverReadyFetch "doc1" 0 60).updates.head? =
      some (DocumentStatus.inserting, 50) :=
  (poller_progress_bands_amended neverReadyFetch "doc1" 0 60 insertingDoc
    (by omega) rfl).1

/-- Claim C9: every `onUpdate` the poller emits except the final terminal
pin-to-100 update carries a progress value of at most 90; on the attempt
where `ready` is first observed the poller first reports progress 90 for
status `ready`, and where `error` is first observed it first reports 0,
before the final update with 100. -/
theorem poller_intermediate_updates_capped
    (fetch : Nat → List Document) (documentId : String)
    (k maxAttempts : Nat) (doc : Document)
    (hk : k < maxAttempts)
    (hpre : ∀ j, j < k → ∃ d, (fetch j).find? (fun d => d.id == documentId) = some d ∧
      d.status.isTerminal = false)
    (hterm : (fetch k).find? (fun d => d.id == documentId) = some doc)
    (hdone : doc.status.isTerminal = true) :
    (∀ u ∈ (pollDocumentStatus fetch documentId maxAttempts).updates.dropLast,
      u.2 ≤ 90) ∧
    (doc.status = .ready → ∃ pre, (pollDocumentStatus fetch documentId maxAttempts).updates =
      pre ++ [(DocumentStatus.ready, 90), (DocumentStatus.ready, 100)]) ∧
    (doc.status = .error → ∃ pre, (pollDocumentStatus fetch documentId maxAttempts).updates =
      pre ++ [(DocumentStatus.error, 0), (DocumentStatus.error, 100)]) := by
  have hpre0 : ∀ j, j < k →
      ∃ d, (fetch (0 + j)).find? (fun d => d.id == documentId) = some d ∧
        d.status.isTerminal = false := by
    intro j hj
    rw [Nat.zero_add]
    exact hpre j hj
  have hterm0 : (fetch (0 + k)).find? (fun d => d.id == documentId) = some doc := by
    rw [Nat.zero_add]
    exact hterm
  obtain ⟨pre, h90, heq⟩ := pollLoop_terminal hk hpre0 hterm0 hdone
  unfold pollDocumentStatus
  rw [heq]
  refine ⟨?_, ?_, ?_⟩
  · intro u hu
    have hd : (pre ++ [(doc.status, min (simulatedProgress doc.status (0 + k)) 90),
        (doc.status, 100)]).dropLast =
        pre ++ [(doc.status, min (simulatedProgress doc.status (0 + k)) 90)] := by
      rw [show pre ++ [(doc.status, min (simulatedProgress doc.status (0 + k)) 90),
          (doc.status, 100)] =
        (pre ++ [(doc.status, min (simulatedProgress doc.status (0 + k)) 90)]) ++
          [(doc.status, 100)] by simp]
      exact List.dropLast_concat
    rw [hd] at hu
    rcases List.mem_append.mp hu with h | h
    · exact h90 u h
    · have : u = (doc.status, min (simulatedProgress doc.status (0 + k)) 90) := by
        simpa using h
      subst this
      exact Nat.min_le_right _ _
  · intro hready
    exact ⟨pre, by simp [hready, simulatedProgress]⟩
  · intro herror
    exact ⟨pre, by simp [herror, simulatedProgress]⟩

/-- Witness for C9: a document that errors on the third fetch produces the
tail `(error, 0), (error, 100)` with all earlier updates at most 90. -/
theorem poller_intermediate_updates_capped_witness :
    (∀ u ∈ (pollDocumentStatus errorAtThirdFetch "doc1" 60).updates.dropLast,
      u.2 ≤ 90) ∧
    (errorDoc.status = .ready →
      ∃ pre, (pollDocumentStatus errorAtThirdFetch "doc1" 60).updates =
        pre ++ [(DocumentStatus.ready, 90), (DocumentStatus.ready, 100)]) ∧
    (errorDoc.status = .error →
      ∃ pre, (pollDocumentStatus errorAtThirdFetch "doc1" 60).updates =
        pre ++ [(DocumentStatus.error, 0), (DocumentStatus.error, 100)]) :=
  poller_intermediate_updates_capped errorAtThirdFetch "doc1" 2 60 errorDoc
    (by omega)
    (fun j hj => ⟨insertingDoc, by
      simp only [errorAtThirdFetch, if_pos hj]
      rfl, rfl⟩)
    (by decide) (by decide)

/-- Claim C7 (spec-modelled): `transition(doc, newStatus)` fails with
`InvalidTransition` exactly when `newStatus` does not follow the monotonic
path `pending → {downloading (arxiv only)} → inserting → {ready | error}` or
the current status is terminal; a successful transition only updates the
status, moves strictly forward along the path (no backward transition), and
never starts from a terminal status. -/
theorem transition_monotonic_and_terminal (doc : Document) (s : DocumentStatus) :
    (doc.status.isTerminal = true → transition doc s = .error .invalidTransition) ∧
    (∀ d', transition doc s = .ok d' →
      d' = { doc with status := s } ∧ statusRank doc.status < statusRank s ∧
        doc.status.isTerminal = false) ∧
    (transition doc s = .error .invalidTransition ↔
      stepAllowed doc.source_type doc.status s = false) := by
  rcases doc with ⟨id, sid, title, sty, st, pph, ppc, aid, pub, pg, cat⟩
  cases st <;> cases s <;> cases sty <;>
    simp [transition, stepAllowed, statusRank, DocumentStatus.isTerminal]

/-- Witness for C7: a `ready` document admits no transition back to
`inserting`. -/
theorem transition_monotonic_and_terminal_witness :
    transition readyDoc .inserting = .error .invalidTransition :=
  (transition_monotonic_and_terminal readyDoc .inserting).1 rfl

/-- Counterexample to C8 as stated: on a stream-level `{event:"error"}`
terminal event the client closes the channel but does not re-fetch the
authoritative document list (`loadDocuments` is only called in the
`complete` branch). -/
theorem stream_error_event_counterexample :
    (onStreamMessage "paper.pdf" errorEventData).closesChannel = true ∧
    (onStreamMessage "paper.pdf" errorEventData).refetchesDocuments = false := by
  decide

/-- Claim C8 as amended: on a `complete` terminal event the client stops
listening by closing the channel and re-fetches the authoritative document
list; on an `error` terminal event it closes the channel and clears the
upload flag but performs no re-fetch; ordinary progress events neither close
the channel nor trigger a re-fetch. -/
theorem stream_terminal_handling_amended (fileName : String) (data : SSEData) :
    (data.event = some "complete" →
      (onStreamMessage fileName data).closesChannel = true ∧
      (onStreamMessage fileName data).refetchesDocuments = true) ∧
    (data.event = some "error" →
      (onStreamMessage fileName data).closesChannel = true ∧
      (onStreamMessage fileName data).refetchesDocuments = false ∧
      (onStreamMessage fileName data).clearsUploading = true) ∧
    (data.event ≠ some "complete" → data.event ≠ some "error" →
      (onStreamMessage fileName data).closesChannel = false ∧
      (onStreamMessage fileName data).refetchesDocuments = false) := by
  refine ⟨?_, ?_, ?_⟩
  · intro h
    simp [onStreamMessage, h]
  · intro h
    simp [onStreamMessage, h]
  · intro h1 h2
    simp [onStreamMessage, h1, h2]

/-- Witness for the amended C8: a `complete`/`ready` event closes the
channel and re-fetches the document list. -/
theorem stream_terminal_handling_amended_witness :
    (onStreamMessage "paper.pdf" completeReadyData).closesChannel = true ∧
    (onStreamMessage "paper.pdf" completeReadyData).refetchesDocuments = true :=
  (stream_terminal_handling_amended "paper.pdf" completeReadyData).1 rfl

/-- Claim C10: when the progress-stream client handles a non-terminal
progress event, an absent `progress_percent` and a `progress_percent` equal
to 0 are both displayed as 10 (the falsy value is coerced by
`data.progress_percent || 10`), so an authoritative progress of exactly 0
from the stream is never rendered as 0. -/
theorem stream_zero_progress_rendered_as_ten (fileName : String) (data : SSEData)
    (h1 : data.event ≠ some "complete") (h2 : data.event ≠ some "error") :
    ((data.progress_percent = none ∨ data.progress_percent = some 0) →
      (onStreamMessage fileName data).update =
        some ⟨.processing, getPhaseDescription data.processing_phase, some 10⟩) ∧
    (∀ u, (onStreamMessage fileName data).update = some u → u.progress ≠ some 0) := by
  have hrun : onStreamMessage fileName data =
      { update := some ⟨.processing, getPhaseDescription data.processing_phase,
          some (jsOrNat data.progress_percent 10)⟩
        closesChannel := false
        refetchesDocuments := false
        clearsUploading := false } := by
    simp [onStreamMessage, h1, h2]
  have hj : jsOrNat data.progress_percent 10 ≠ 0 := by
    cases hx : data.progress_percent with
    | none => simp [jsOrNat]
    | some v =>
      cases v with
      | zero => simp [jsOrNat]
      | succ n => simp [jsOrNat]
  constructor
  · rintro (h | h) <;> simp [hrun, jsOrNat, h]
  · intro u hu
    rw [hrun] at hu
    have hu' : u = ⟨.processing, getPhaseDescription data.processing_phase,
        some (jsOrNat data.progress_percent 10)⟩ := by
      simpa using hu.symm
    subst hu'
    simpa using hj

/-- Witness for C10: a progress event carrying `progress_percent = 0` is
displayed with progress 10. -/
theorem stream_zero_progress_rendered_as_ten_witness :
    (onStreamMessage "paper.pdf" zeroProgressData).update =
      some ⟨.processing, getPhaseDescription (some .pdf_extraction), some 10⟩ :=
  (stream_zero_progress_rendered_as_ten "paper.pdf" zeroProgressData
    (by decide) (by decide)).1 (Or.inr rfl)

end DashRAG
